import Mathlib

/-!
Verification of the Orbit relevance-scoring engine.

The definitions below are a shallow embedding of `src/engine/score.js`
(and, for the ranker, of the specified `rankItems` contract).
Timestamps are modelled as integer milliseconds since the epoch (the value
of JavaScript `Date.getTime()`); histograms are association lists from a
bucket key to a natural-number count; purely rational sub-scores live in
`ℚ` and the overall score in `ℝ` (the recency and frequency boosts use
`exp` and `log10`).
-/

namespace Orbit

/-- Lookup of a bucket count in a histogram (JS `histogram[key] || 0`). -/
def histGet {K : Type} [DecidableEq K] : List (K × Nat) → K → Nat
  | [], _ => 0
  | (k, v) :: rest, key => if k = key then v else histGet rest key

/-- Sum of all bucket counts (JS `Object.values(histogram).reduce((a, b) => a + b, 0)`). -/
def histTotal {K : Type} (l : List (K × Nat)) : Nat :=
  (l.map Prod.snd).sum

/-- Context snapshot for one ranking pass (`OrbitContext`). -/
structure Context where
  now : Int
  hour : Nat
  day : Nat
  device : String
  place : String

/-- Mutable interaction state of an item (`OrbitItemSignals`). -/
structure Signals where
  createdAt : Int
  lastSeenAt : Option Int
  seenCount : Nat
  openedCount : Nat
  dismissedCount : Nat
  hourHistogram : List (Nat × Nat)
  dayHistogram : List (Nat × Nat)
  placeHistogram : List (String × Nat)
  deviceHistogram : List (String × Nat)
  ignoredStreak : Nat
  isPinned : Bool
  pinUntil : Option Int
  quietUntil : Option Int

/-- An attention item (`OrbitItem`, content fields irrelevant to scoring kept minimal). -/
structure Item where
  id : String
  title : String
  signals : Signals

namespace SCORING_WEIGHTS

def TIME : ℝ := 0.20

def PLACE : ℝ := 0.15

def DEVICE : ℝ := 0.10

def RECENCY : ℝ := 0.25

def FREQUENCY : ℝ := 0.15

def PINNED : ℝ := 0.10

def NOVELTY : ℝ := 0.05

end SCORING_WEIGHTS

/-- `ITEM_DEFAULTS.MAX_VISIBLE` from `src/config/constants`. -/
def MAX_VISIBLE : Nat := 5

/-- `ITEM_DEFAULTS.DECAY_DAYS` from `src/config/constants`. -/
def DECAY_DAYS : ℚ := 7

/-- Milliseconds in one hour. -/
def msPerHour : ℚ := 3600000

/-- Milliseconds in one day. -/
def msPerDay : ℚ := 86400000

/-- Age of an item in hours at `ctx.now` (`(now - created) / (1000*60*60)`). -/
def ageHours (item : Item) (ctx : Context) : ℚ :=
  ((ctx.now - item.signals.createdAt : Int) : ℚ) / msPerHour

/-- Age of an item in days at `ctx.now` (`(now - created) / (1000*60*60*24)`). -/
def ageDaysSinceCreated (item : Item) (ctx : Context) : ℚ :=
  ((ctx.now - item.signals.createdAt : Int) : ℚ) / msPerDay

/-- `computeTimeAffinity` from `score.js`: hour-of-day probability with a
half-weighted one-hour neighbourhood, blended 0.7 / 0.3 with the
day-of-week probability. -/
def computeTimeAffinity (item : Item) (ctx : Context) : ℚ :=
  let hh := item.signals.hourHistogram
  let h := ctx.hour
  let hPrev := (h + 23) % 24
  let hNext := (h + 1) % 24
  let countH : ℚ := histGet hh h
  let countPrev : ℚ := histGet hh hPrev
  let countNext : ℚ := histGet hh hNext
  let totalHours := histTotal hh
  let hourProb : ℚ := if 0 < totalHours then countH / (totalHours : ℚ) else 0
  let neighborProb : ℚ :=
    if 0 < totalHours then (countPrev + countNext) / (totalHours : ℚ) else 0
  let hourAffinity := min 1 (hourProb + neighborProb * (1 / 2))
  let dayCount : ℚ := histGet item.signals.dayHistogram ctx.day
  let totalDays := histTotal item.signals.dayHistogram
  let dayAffinity : ℚ := if 0 < totalDays then dayCount / (totalDays : ℚ) else 0
  hourAffinity * (7 / 10) + dayAffinity * (3 / 10)

/-- `computePlaceAffinity` from `score.js`: 0.8 when the context place is
unknown; otherwise the item's share of interactions at this place when any
place history exists, and 0.5 when the place histogram is empty. -/
def computePlaceAffinity (item : Item) (ctx : Context) : ℚ :=
  if ctx.place = "unknown" then 4 / 5
  else
    let placeCount : ℚ := histGet item.signals.placeHistogram ctx.place
    let total := histTotal item.signals.placeHistogram
    if 0 < total then placeCount / (total : ℚ) else 1 / 2

/-- `computeDeviceAffinity` from `score.js`. -/
def computeDeviceAffinity (item : Item) (ctx : Context) : ℚ :=
  let deviceCount : ℚ := histGet item.signals.deviceHistogram ctx.device
  let total := histTotal item.signals.deviceHistogram
  if 0 < total then deviceCount / (total : ℚ) else 0

/-- `computeRecencyBoost` from `score.js`: `exp(-ageDays / DECAY_DAYS)`
from `lastSeenAt`, 0 when never seen. -/
noncomputable def computeRecencyBoost (item : Item) (ctx : Context) : ℝ :=
  match item.signals.lastSeenAt with
  | none => 0
  | some last =>
      Real.exp (-((((ctx.now - last : Int) : ℚ) / msPerDay : ℚ) : ℝ) / (DECAY_DAYS : ℝ))

/-- `computeFrequencyBoost` from `score.js`:
`min(1, log10(seenCount + 2*openedCount + 1) / 2)`. -/
noncomputable def computeFrequencyBoost (item : Item) : ℝ :=
  let interactions := item.signals.seenCount + item.signals.openedCount * 2
  min 1 (Real.logb 10 ((interactions : ℝ) + 1) / 2)

/-- `computeNoveltyBoost` from `score.js`: 1 below 24 hours of age,
`1 - (ageHours - 24)/48` up to 72 hours, 0 from then on. -/
def computeNoveltyBoost (item : Item) (ctx : Context) : ℚ :=
  let ah := ageHours item ctx
  if ah < 24 then 1
  else if ah < 72 then 1 - (ah - 24) / 48
  else 0

/-- `computeDecay` from `score.js`: `min(0.5, ignoredStreak * 0.1)` once
seen, `min(0.8, ageDays / 30)` when never seen. -/
def computeDecay (item : Item) (ctx : Context) : ℚ :=
  let streakDecay := min (1 / 2) ((item.signals.ignoredStreak : ℚ) * (1 / 10))
  match item.signals.lastSeenAt with
  | none => min (4 / 5) (ageDaysSinceCreated item ctx / 30)
  | some _ => streakDecay

/-- The pin test inside `computeRelevance`: `isPinned` and the pin has not
expired (`pinUntil` absent or strictly later than `ctx.now`). -/
def pinActive (item : Item) (ctx : Context) : Bool :=
  item.signals.isPinned &&
    (match item.signals.pinUntil with
     | none => true
     | some t => decide (ctx.now < t))

/-- The quiet test inside `computeRelevance`: `quietUntil` present and
strictly later than `ctx.now`. -/
def quietActive (item : Item) (ctx : Context) : Bool :=
  match item.signals.quietUntil with
  | none => false
  | some q => decide (ctx.now < q)

/-- `normalize` from `score.js`: clamp to `[0, 1]`. -/
def normalize (score : ℝ) : ℝ :=
  max 0 (min 1 score)

/-- The weighted sum accumulated by `computeRelevance` before the decay
multiplier is applied (sub-scores times weights, plus the flat pin weight). -/
noncomputable def rawScore (item : Item) (ctx : Context) : ℝ :=
  (computeTimeAffinity item ctx : ℝ) * SCORING_WEIGHTS.TIME
    + (computePlaceAffinity item ctx : ℝ) * SCORING_WEIGHTS.PLACE
    + (computeDeviceAffinity item ctx : ℝ) * SCORING_WEIGHTS.DEVICE
    + computeRecencyBoost item ctx * SCORING_WEIGHTS.RECENCY
    + computeFrequencyBoost item * SCORING_WEIGHTS.FREQUENCY
    + (if pinActive item ctx then SCORING_WEIGHTS.PINNED else 0)
    + (computeNoveltyBoost item ctx : ℝ) * SCORING_WEIGHTS.NOVELTY

/-- The score right after `score *= (1 - decay)` in `computeRelevance`,
before quiet suppression and clamping. -/
noncomputable def scoreAfterDecay (item : Item) (ctx : Context) : ℝ :=
  rawScore item ctx * (1 - (computeDecay item ctx : ℝ))

/-- Result record of `computeRelevance`. -/
structure ScoreResult where
  score : ℝ
  reasons : List String

open Classical in
/-- `computeRelevance` from `score.js`: the weighted sub-score sum, the
decay multiplier, quiet suppression, clamping, and the reason labels in
their evaluation order. -/
noncomputable def computeRelevance (item : Item) (ctx : Context) : ScoreResult :=
  let timeScore := computeTimeAffinity item ctx
  let placeScore := computePlaceAffinity item ctx
  let deviceScore := computeDeviceAffinity item ctx
  let recencyScore := computeRecencyBoost item ctx
  let frequencyScore := computeFrequencyBoost item
  let noveltyScore := computeNoveltyBoost item ctx
  let decay := computeDecay item ctx
  let reasons : List String :=
    (if 1 / 2 < timeScore ∧ 10 < histTotal item.signals.hourHistogram then
      ["matches your usual time"] else [])
    ++ (if 1 / 2 < placeScore ∧ 5 < histTotal item.signals.placeHistogram then
      ["often seen at " ++ ctx.place] else [])
    ++ (if 1 / 2 < deviceScore ∧ 5 < histTotal item.signals.deviceHistogram then
      ["fits " ++ ctx.device ++ " context"] else [])
    ++ (if (7 / 10 : ℝ) < recencyScore then ["recently on your mind"] else [])
    ++ (if (1 / 2 : ℝ) < frequencyScore then ["frequently accessed"] else [])
    ++ (if pinActive item ctx then ["pinned"] else [])
    ++ (if 1 / 2 < noveltyScore then ["newly added"] else [])
    ++ (if 3 / 10 < decay then ["fading from focus"] else [])
    ++ (if quietActive item ctx then ["quieted"] else [])
  let final :=
    if quietActive item ctx then scoreAfterDecay item ctx * (1 / 10)
    else scoreAfterDecay item ctx
  { score := normalize final, reasons := reasons }

/-- `scoreToDistance` from `score.js`. -/
def scoreToDistance (score : ℝ) : ℝ :=
  1 - score

/-- An item with its freshly computed score and reasons, the element type
of the ranker's `all` and `visible` lists. -/
structure ScoredItem where
  item : Item
  score : ℝ
  reasons : List String

/-- Modelled from the spec: the ordering the ranker sorts by, higher score
first with ties broken by `createdAt` ascending (spec section 4.3; the
ranker source `src/engine/rank.js` is not among the provided files). -/
def rankRel (a b : ScoredItem) : Prop :=
  b.score < a.score ∨ (a.score = b.score ∧ a.item.signals.createdAt ≤ b.item.signals.createdAt)

noncomputable instance : DecidableRel rankRel :=
  fun _ _ => Classical.propDecidable _

instance : IsTotal ScoredItem rankRel := by
  constructor
  intro a b
  rcases lt_trichotomy a.score b.score with h | h | h
  · exact Or.inr (Or.inl h)
  · rcases le_total a.item.signals.createdAt b.item.signals.createdAt with h2 | h2
    · exact Or.inl (Or.inr ⟨h, h2⟩)
    · exact Or.inr (Or.inr ⟨h.symm, h2⟩)
  · exact Or.inl (Or.inl h)

instance : IsTrans ScoredItem rankRel := by
  constructor
  intro a b c hab hbc
  rcases hab with h1 | ⟨e1, c1⟩ <;> rcases hbc with h2 | ⟨e2, c2⟩
  · exact Or.inl (h2.trans h1)
  · exact Or.inl (e2 ▸ h1)
  · exact Or.inl (e1 ▸ h2)
  · exact Or.inr ⟨e1.trans e2, c1.trans c2⟩

/-- Modelled from the spec: the per-item scoring step of `rankItems`
(spec section 4.3, `all` is "every input item with freshly computed
`score`/`reasons` attached"). -/
noncomputable def scoreItems (items : List Item) (ctx : Context) : List ScoredItem :=
  items.map (fun it =>
    { item := it, score := (computeRelevance it ctx).score,
      reasons := (computeRelevance it ctx).reasons })

/-- Modelled from the spec: the sorted `all` list of `rankItems`,
descending by score with ties broken by `createdAt` ascending. -/
noncomputable def rankAll (items : List Item) (ctx : Context) : List ScoredItem :=
  List.insertionSort rankRel (scoreItems items ctx)

/-- Result record of `rankItems`. -/
structure RankResult where
  all : List ScoredItem
  visible : List ScoredItem

/-- Modelled from the spec: `rankItems` lives in `src/engine/rank.js`,
which is not among the provided sources (only its importers are). Spec
section 4.3: `all` is every input item freshly scored and sorted
descending by score with ties broken by `createdAt` ascending; `visible`
is the top `MAX_VISIBLE` of `all`, with quiet-suppressed items
de-prioritized but still used to fill the cap when too few non-quieted
items exist. -/
noncomputable def rankItems (items : List Item) (ctx : Context) : RankResult :=
  { all := rankAll items ctx,
    visible :=
      ((rankAll items ctx).filter (fun s => !(quietActive s.item ctx))
        ++ (rankAll items ctx).filter (fun s => quietActive s.item ctx)).take MAX_VISIBLE }

/-- Field update used to state claims comparing items that differ only in
`dismissedCount`. -/
def withDismissedCount (item : Item) (n : Nat) : Item :=
  { item with signals := { item.signals with dismissedCount := n } }

/-- Field update used to state claims comparing items that differ only in
`quietUntil`. -/
def withQuietUntil (item : Item) (q : Option Int) : Item :=
  { item with signals := { item.signals with quietUntil := q } }

/-- Field update used to state claims comparing items that differ only in
`isPinned`. -/
def withPinned (item : Item) (b : Bool) : Item :=
  { item with signals := { item.signals with isPinned := b } }

/-- Zeroed signal state, as produced by `createItem` at epoch time. -/
def blankSignals : Signals :=
  { createdAt := 0, lastSeenAt := none, seenCount := 0, openedCount := 0,
    dismissedCount := 0, hourHistogram := [], dayHistogram := [],
    placeHistogram := [], deviceHistogram := [], ignoredStreak := 0,
    isPinned := false, pinUntil := none, quietUntil := none }

/-- A concrete fresh item used by witnesses and counterexamples. -/
def blankItem : Item :=
  { id := "item-0", title := "groceries", signals := blankSignals }

/-- A concrete context at epoch time with the place unknown. -/
def baseCtx : Context :=
  { now := 0, hour := 9, day := 2, device := "desktop", place := "unknown" }

/-- A concrete context at epoch time with the place known to be home. -/
def homeCtx : Context :=
  { now := 0, hour := 9, day := 2, device := "desktop", place := "home" }

/-- Counterexample item for the place-affinity case analysis: one recorded
interaction at work, none at home. -/
def placeCexItem : Item :=
  { blankItem with signals := { blankSignals with placeHistogram := [("work", 1)] } }

/-- Counterexample item for the quiet-suppression bound: created 150 days
in the future (decay `min(0.8, ageDays/30)` is then negative) and quieted. -/
def quietCexItem : Item :=
  { blankItem with signals :=
      { blankSignals with createdAt := 12960000000, quietUntil := some 100 } }

/-- The quiet counterexample item with the quiet period removed. -/
def quietCexItemNoQuiet : Item :=
  withQuietUntil quietCexItem none

/-- Witness item for the quiet-suppression bound: fresh, quieted until 50ms
after the epoch. -/
def quietWItem : Item :=
  { blankItem with signals := { blankSignals with quietUntil := some 50 } }

/-- Witness item for the pin invariant: pinned without expiry. -/
def pinWItem : Item :=
  { blankItem with signals := { blankSignals with isPinned := true } }

/-- Witness item for the decay formula: seen once, ignored three times. -/
def decayWItem : Item :=
  { blankItem with signals :=
      { blankSignals with lastSeenAt := some 5, seenCount := 1, ignoredStreak := 3 } }

/-- Witness context 48 hours after the epoch. -/
def novelty48Ctx : Context :=
  { now := 172800000, hour := 9, day := 2, device := "desktop", place := "unknown" }

/-- Eight concrete unpinned, unquieted items for the ranking scenario. -/
def witnessItems : List Item :=
  (List.range 8).map (fun i =>
    { id := toString i, title := toString i,
      signals := { blankSignals with createdAt := (i : Int) } })

/-- An item with no interaction history: zero counters, empty histograms,
never seen. -/
def noHistory (item : Item) : Prop :=
  item.signals.seenCount = 0 ∧ item.signals.openedCount = 0 ∧
    item.signals.dismissedCount = 0 ∧ item.signals.hourHistogram = [] ∧
    item.signals.dayHistogram = [] ∧ item.signals.placeHistogram = [] ∧
    item.signals.deviceHistogram = [] ∧ item.signals.lastSeenAt = none

instance (item : Item) : Decidable (noHistory item) := by
  unfold noHistory
  infer_instance

theorem histGet_le_histTotal {K : Type} [DecidableEq K] (l : List (K × Nat)) (k : K) :
    histGet l k ≤ histTotal l := by
  induction l with
  | nil => simp [histGet, histTotal]
  | cons p rest ih =>
    obtain ⟨a, v⟩ := p
    simp only [histGet, histTotal, List.map_cons, List.sum_cons]
    by_cases h : a = k
    · simp only [if_pos h]
      exact Nat.le_add_right _ _
    · simp only [if_neg h]
      exact ih.trans (Nat.le_add_left _ _)

theorem normalize_nonneg (s : ℝ) : 0 ≤ normalize s :=
  le_max_left 0 _

theorem normalize_le_one (s : ℝ) : normalize s ≤ 1 :=
  max_le zero_le_one (min_le_left 1 s)

theorem normalize_mono {x y : ℝ} (h : x ≤ y) : normalize x ≤ normalize y :=
  max_le_max le_rfl (min_le_min le_rfl h)

theorem normalize_of_mem_unit {x : ℝ} (h0 : 0 ≤ x) (h1 : x ≤ 1) : normalize x = x := by
  unfold normalize
  rw [min_eq_right h1, max_eq_right h0]

/-- The score of `computeRelevance` written through the intermediate
quantities `scoreAfterDecay` and `quietActive`. -/
theorem computeRelevance_score (item : Item) (ctx : Context) :
    (computeRelevance item ctx).score =
      normalize (if quietActive item ctx then scoreAfterDecay item ctx * (1 / 10)
        else scoreAfterDecay item ctx) := rfl

theorem computeTimeAffinity_nonneg (item : Item) (ctx : Context) :
    0 ≤ computeTimeAffinity item ctx := by
  simp only [computeTimeAffinity]
  split_ifs <;>
  · apply add_nonneg
    · apply mul_nonneg _ (by norm_num)
      exact le_min (by norm_num) (by positivity)
    · apply mul_nonneg _ (by norm_num)
      positivity

theorem computeTimeAffinity_le_one (item : Item) (ctx : Context) :
    computeTimeAffinity item ctx ≤ 1 := by
  simp only [computeTimeAffinity]
  have hday : (if 0 < histTotal item.signals.dayHistogram then
      (histGet item.signals.dayHistogram ctx.day : ℚ) / (histTotal item.signals.dayHistogram : ℚ)
      else 0) ≤ 1 := by
    split_ifs with h
    · rw [div_le_one (by exact_mod_cast h)]
      exact_mod_cast histGet_le_histTotal _ _
    · norm_num
  have hhour : min (1 : ℚ)
      ((if 0 < histTotal item.signals.hourHistogram then
          (histGet item.signals.hourHistogram ctx.hour : ℚ) /
            (histTotal item.signals.hourHistogram : ℚ) else 0)
        + (if 0 < histTotal item.signals.hourHistogram then
            ((histGet item.signals.hourHistogram ((ctx.hour + 23) % 24) : ℚ)
              + (histGet item.signals.hourHistogram ((ctx.hour + 1) % 24) : ℚ)) /
              (histTotal item.signals.hourHistogram : ℚ) else 0) * (1 / 2)) ≤ 1 :=
    min_le_left _ _
  linarith

theorem computePlaceAffinity_nonneg (item : Item) (ctx : Context) :
    0 ≤ computePlaceAffinity item ctx := by
  simp only [computePlaceAffinity]
  split_ifs <;> positivity

theorem computePlaceAffinity_le_one (item : Item) (ctx : Context) :
    computePlaceAffinity item ctx ≤ 1 := by
  simp only [computePlaceAffinity]
  split_ifs with h1 h2
  · norm_num
  · rw [div_le_one (by exact_mod_cast h2)]
    exact_mod_cast histGet_le_histTotal _ _
  · norm_num

theorem computeDeviceAffinity_nonneg (item : Item) (ctx : Context) :
    0 ≤ computeDeviceAffinity item ctx := by
  simp only [computeDeviceAffinity]
  split_ifs <;> positivity

theorem computeDeviceAffinity_le_one (item : Item) (ctx : Context) :
    computeDeviceAffinity item ctx ≤ 1 := by
  simp only [computeDeviceAffinity]
  split_ifs with h
  · rw [div_le_one (by exact_mod_cast h)]
    exact_mod_cast histGet_le_histTotal _ _
  · norm_num

theorem computeNoveltyBoost_nonneg (item : Item) (ctx : Context) :
    0 ≤ computeNoveltyBoost item ctx := by
  simp only [computeNoveltyBoost]
  split_ifs with h1 h2
  · norm_num
  · have h3 : ageHours item ctx - 24 ≤ 48 := by linarith
    have h4 : (ageHours item ctx - 24) / 48 ≤ 1 := by
      rw [div_le_one (by norm_num)]
      exact h3
    linarith
  · norm_num

theorem computeNoveltyBoost_le_one (item : Item) (ctx : Context) :
    computeNoveltyBoost item ctx ≤ 1 := by
  simp only [computeNoveltyBoost]
  split_ifs with h1 h2
  · norm_num
  · have h3 : 0 ≤ (ageHours item ctx - 24) / 48 := by
      apply div_nonneg _ (by norm_num)
      linarith [not_lt.mp h1]
    linarith
  · norm_num

theorem computeFrequencyBoost_nonneg (item : Item) :
    0 ≤ computeFrequencyBoost item := by
  simp only [computeFrequencyBoost]
  apply le_min zero_le_one
  apply div_nonneg _ (by norm_num)
  apply Real.logb_nonneg (by norm_num)
  have : (0 : ℝ) ≤ ((item.signals.seenCount + item.signals.openedCount * 2 : Nat) : ℝ) :=
    Nat.cast_nonneg _
  linarith

theorem computeFrequencyBoost_le_one (item : Item) :
    computeFrequencyBoost item ≤ 1 :=
  min_le_left _ _

theorem computeRecencyBoost_nonneg (item : Item) (ctx : Context) :
    0 ≤ computeRecencyBoost item ctx := by
  unfold computeRecencyBoost
  cases item.signals.lastSeenAt with
  | none => exact le_rfl
  | some last => exact (Real.exp_pos _).le

theorem computeRecencyBoost_le_one (item : Item) (ctx : Context)
    (hl : ∀ t, item.signals.lastSeenAt = some t → t ≤ ctx.now) :
    computeRecencyBoost item ctx ≤ 1 := by
  unfold computeRecencyBoost
  cases hsee : item.signals.lastSeenAt with
  | none => norm_num
  | some last =>
    rw [Real.exp_le_one_iff]
    have hle : last ≤ ctx.now := hl last hsee
    have hq : (0 : ℚ) ≤ ((ctx.now - last : Int) : ℚ) / msPerDay := by
      apply div_nonneg _ (by norm_num [msPerDay])
      exact_mod_cast Int.sub_nonneg.mpr hle
    have hr : (0 : ℝ) ≤ ((((ctx.now - last : Int) : ℚ) / msPerDay : ℚ) : ℝ) := by
      exact_mod_cast hq
    have hd : (0 : ℝ) < (DECAY_DAYS : ℝ) := by norm_num [DECAY_DAYS]
    apply div_nonpos_of_nonpos_of_nonneg _ hd.le
    linarith

theorem computeDecay_le (item : Item) (ctx : Context) :
    computeDecay item ctx ≤ 4 / 5 := by
  unfold computeDecay
  cases item.signals.lastSeenAt with
  | none => exact min_le_left _ _
  | some last => exact (min_le_left _ _).trans (by norm_num)

theorem computeDecay_nonneg (item : Item) (ctx : Context)
    (hc : item.signals.lastSeenAt = none → item.signals.createdAt ≤ ctx.now) :
    0 ≤ computeDecay item ctx := by
  unfold computeDecay
  cases hsee : item.signals.lastSeenAt with
  | none =>
    apply le_min (by norm_num)
    apply div_nonneg _ (by norm_num)
    unfold ageDaysSinceCreated
    apply div_nonneg _ (by norm_num [msPerDay])
    exact_mod_cast Int.sub_nonneg.mpr (hc hsee)
  | some last =>
    exact le_min (by norm_num) (by positivity)

theorem rawScore_nonneg (item : Item) (ctx : Context) :
    0 ≤ rawScore item ctx := by
  unfold rawScore
  have h1 : (0 : ℝ) ≤ (computeTimeAffinity item ctx : ℝ) := by
    exact_mod_cast computeTimeAffinity_nonneg item ctx
  have h2 : (0 : ℝ) ≤ (computePlaceAffinity item ctx : ℝ) := by
    exact_mod_cast computePlaceAffinity_nonneg item ctx
  have h3 : (0 : ℝ) ≤ (computeDeviceAffinity item ctx : ℝ) := by
    exact_mod_cast computeDeviceAffinity_nonneg item ctx
  have h4 := computeRecencyBoost_nonneg item ctx
  have h5 := computeFrequencyBoost_nonneg item
  have h6 : (0 : ℝ) ≤ (computeNoveltyBoost item ctx : ℝ) := by
    exact_mod_cast computeNoveltyBoost_nonneg item ctx
  have h7 : (0 : ℝ) ≤ (if pinActive item ctx then SCORING_WEIGHTS.PINNED else 0) := by
    split_ifs
    · norm_num [SCORING_WEIGHTS.PINNED]
    · exact le_rfl
  have w1 : (0 : ℝ) ≤ SCORING_WEIGHTS.TIME := by norm_num [SCORING_WEIGHTS.TIME]
  have w2 : (0 : ℝ) ≤ SCORING_WEIGHTS.PLACE := by norm_num [SCORING_WEIGHTS.PLACE]
  have w3 : (0 : ℝ) ≤ SCORING_WEIGHTS.DEVICE := by norm_num [SCORING_WEIGHTS.DEVICE]
  have w4 : (0 : ℝ) ≤ SCORING_WEIGHTS.RECENCY := by norm_num [SCORING_WEIGHTS.RECENCY]
  have w5 : (0 : ℝ) ≤ SCORING_WEIGHTS.FREQUENCY := by norm_num [SCORING_WEIGHTS.FREQUENCY]
  have w7 : (0 : ℝ) ≤ SCORING_WEIGHTS.NOVELTY := by norm_num [SCORING_WEIGHTS.NOVELTY]
  have := mul_nonneg h1 w1
  have := mul_nonneg h2 w2
  have := mul_nonneg h3 w3
  have := mul_nonneg h4 w4
  have := mul_nonneg h5 w5
  have := mul_nonneg h6 w7
  linarith

theorem rawScore_le_one (item : Item) (ctx : Context)
    (hl : ∀ t, item.signals.lastSeenAt = some t → t ≤ ctx.now) :
    rawScore item ctx ≤ 1 := by
  unfold rawScore
  have h1 : (computeTimeAffinity item ctx : ℝ) ≤ 1 := by
    exact_mod_cast computeTimeAffinity_le_one item ctx
  have h1n : (0 : ℝ) ≤ (computeTimeAffinity item ctx : ℝ) := by
    exact_mod_cast computeTimeAffinity_nonneg item ctx
  have h2 : (computePlaceAffinity item ctx : ℝ) ≤ 1 := by
    exact_mod_cast computePlaceAffinity_le_one item ctx
  have h3 : (computeDeviceAffinity item ctx : ℝ) ≤ 1 := by
    exact_mod_cast computeDeviceAffinity_le_one item ctx
  have h4 := computeRecencyBoost_le_one item ctx hl
  have h5 := computeFrequencyBoost_le_one item
  have h6 : (computeNoveltyBoost item ctx : ℝ) ≤ 1 := by
    exact_mod_cast computeNoveltyBoost_le_one item ctx
  have h7 : (if pinActive item ctx then SCORING_WEIGHTS.PINNED else 0) ≤
      SCORING_WEIGHTS.PINNED := by
    split_ifs
    · exact le_rfl
    · norm_num [SCORING_WEIGHTS.PINNED]
  simp only [SCORING_WEIGHTS.TIME, SCORING_WEIGHTS.PLACE, SCORING_WEIGHTS.DEVICE,
    SCORING_WEIGHTS.RECENCY, SCORING_WEIGHTS.FREQUENCY, SCORING_WEIGHTS.PINNED,
    SCORING_WEIGHTS.NOVELTY] at h7 ⊢
  nlinarith [computePlaceAffinity_nonneg item ctx, computeDeviceAffinity_nonneg item ctx,
    computeRecencyBoost_nonneg item ctx, computeFrequencyBoost_nonneg item,
    computeNoveltyBoost_nonneg item ctx]

theorem scoreAfterDecay_mem_unit (item : Item) (ctx : Context)
    (hc : item.signals.lastSeenAt = none → item.signals.createdAt ≤ ctx.now)
    (hl : ∀ t, item.signals.lastSeenAt = some t → t ≤ ctx.now) :
    0 ≤ scoreAfterDecay item ctx ∧ scoreAfterDecay item ctx ≤ 1 := by
  unfold scoreAfterDecay
  have hr0 := rawScore_nonneg item ctx
  have hr1 := rawScore_le_one item ctx hl
  have hd0 : (0 : ℝ) ≤ (computeDecay item ctx : ℝ) := by
    exact_mod_cast computeDecay_nonneg item ctx hc
  have hd1 : (computeDecay item ctx : ℝ) ≤ 4 / 5 := by
    have h := (Rat.cast_le (K := ℝ)).mpr (computeDecay_le item ctx)
    push_cast at h
    exact h
  constructor
  · apply mul_nonneg hr0
    linarith
  · nlinarith [mul_nonneg hr0 hd0]

/-- C1: for every item and every context, the score returned by
`computeRelevance` lies in `[0, 1]` after clamping, whatever the
(arbitrarily large) counter and histogram values are. -/
theorem c1_relevance_score_mem_unit (item : Item) (ctx : Context) :
    0 ≤ (computeRelevance item ctx).score ∧ (computeRelevance item ctx).score ≤ 1 := by
  rw [computeRelevance_score]
  exact ⟨normalize_nonneg _, normalize_le_one _⟩

/-- C2 counterexample: an item with one recorded interaction at work and a
context at home. The claim predicts a fallback of 0.5 (some history, none
at this place), but the code returns `0 / 1 = 0`. -/
theorem c2_place_affinity_claim_cex :
    homeCtx.place ≠ "unknown" ∧
    histTotal placeCexItem.signals.placeHistogram = 1 ∧
    histGet placeCexItem.signals.placeHistogram homeCtx.place = 0 ∧
    computePlaceAffinity placeCexItem homeCtx = 0 ∧ (0 : ℚ) ≠ 1 / 2 := by
  refine ⟨by decide, rfl, rfl, ?_, by norm_num⟩
  simp +decide [computePlaceAffinity, placeCexItem, homeCtx, blankItem, blankSignals,
    histGet, histTotal]

/-- C2 amended: the place sub-score is 0.8 when the context place is
unknown; otherwise, when the item has any place history it is the item's
share of interactions at `context.place` (0 when there is history only at
other places), and with zero total place history it falls back to 0.5. -/
theorem c2_place_affinity_cases (item : Item) (ctx : Context) :
    (ctx.place = "unknown" → computePlaceAffinity item ctx = 4 / 5) ∧
    (ctx.place ≠ "unknown" → 0 < histTotal item.signals.placeHistogram →
      computePlaceAffinity item ctx =
        (histGet item.signals.placeHistogram ctx.place : ℚ) /
          (histTotal item.signals.placeHistogram : ℚ)) ∧
    (ctx.place ≠ "unknown" → histTotal item.signals.placeHistogram = 0 →
      computePlaceAffinity item ctx = 1 / 2) := by
  refine ⟨?_, ?_, ?_⟩
  · intro h
    simp only [computePlaceAffinity, if_pos h]
  · intro h h2
    simp only [computePlaceAffinity, if_neg h, if_pos h2]
  · intro h h2
    simp only [computePlaceAffinity, if_neg h, h2]
    norm_num

/-- Witness for the amended place-affinity case analysis, at a fresh item
in an unknown-place context. -/
theorem c2_place_affinity_cases_witness :
    computePlaceAffinity blankItem baseCtx = 4 / 5 :=
  (c2_place_affinity_cases blankItem baseCtx).1 rfl

/-- C3 counterexample: a fresh item with no interaction history in a
context at home. The claim predicts a place sub-score of 0, but the code
falls back to 0.5 when the place histogram is empty. -/
theorem c3_no_history_claim_cex :
    noHistory blankItem ∧
    computePlaceAffinity blankItem homeCtx = 1 / 2 ∧ ((1 : ℚ) / 2 ≠ 0) := by
  refine ⟨by decide, ?_, by norm_num⟩
  simp +decide [computePlaceAffinity, blankItem, blankSignals, homeCtx, histTotal]

/-- C3 amended: for an unpinned, unquieted item with no interaction
history, the time, device, recency and frequency sub-scores are 0, the
place sub-score is the context constant 0.8 (unknown place) or 0.5
(known place), and the overall score is determined by the place constant,
the novelty sub-score, and the never-seen age decay alone. -/
theorem c3_no_history_subscores (item : Item) (ctx : Context)
    (h : noHistory item) (hp : item.signals.isPinned = false)
    (hq : item.signals.quietUntil = none) :
    computeTimeAffinity item ctx = 0 ∧
    computeDeviceAffinity item ctx = 0 ∧
    computeRecencyBoost item ctx = 0 ∧
    computeFrequencyBoost item = 0 ∧
    computePlaceAffinity item ctx = (if ctx.place = "unknown" then 4 / 5 else 1 / 2) ∧
    (computeRelevance item ctx).score =
      normalize (((computePlaceAffinity item ctx : ℝ) * SCORING_WEIGHTS.PLACE
          + (computeNoveltyBoost item ctx : ℝ) * SCORING_WEIGHTS.NOVELTY)
        * (1 - (computeDecay item ctx : ℝ))) := by
  obtain ⟨hs, ho, hd, hh, hdy, hpl, hdev, hls⟩ := h
  have ht : computeTimeAffinity item ctx = 0 := by
    simp [computeTimeAffinity, hh, hdy, histGet, histTotal]
  have hdev0 : computeDeviceAffinity item ctx = 0 := by
    simp [computeDeviceAffinity, hdev, histGet, histTotal]
  have hrec : computeRecencyBoost item ctx = 0 := by
    simp [computeRecencyBoost, hls]
  have hfreq : computeFrequencyBoost item = 0 := by
    simp [computeFrequencyBoost, hs, ho, Real.logb_one]
  have hplace : computePlaceAffinity item ctx =
      (if ctx.place = "unknown" then 4 / 5 else 1 / 2) := by
    by_cases hu : ctx.place = "unknown"
    · simp [computePlaceAffinity, hu]
    · simp [computePlaceAffinity, hu, hpl, histTotal]
  have hpin : pinActive item ctx = false := by
    simp [pinActive, hp]
  have hquiet : quietActive item ctx = false := by
    simp [quietActive, hq]
  have hraw : rawScore item ctx =
      (computePlaceAffinity item ctx : ℝ) * SCORING_WEIGHTS.PLACE
        + (computeNoveltyBoost item ctx : ℝ) * SCORING_WEIGHTS.NOVELTY := by
    unfold rawScore
    rw [ht, hdev0, hrec, hfreq, hpin]
    push_cast
    ring
  refine ⟨ht, hdev0, hrec, hfreq, hplace, ?_⟩
  rw [computeRelevance_score, hquiet]
  simp only [Bool.false_eq_true, if_false]
  unfold scoreAfterDecay
  rw [hraw]

/-- Witness for the amended no-history claim: a fresh blank item in the
unknown-place base context. -/
theorem c3_no_history_subscores_witness :
    computePlaceAffinity blankItem baseCtx =
      (if baseCtx.place = "unknown" then 4 / 5 else 1 / 2) :=
  (c3_no_history_subscores blankItem baseCtx (by decide) rfl rfl).2.2.2.2.1

/-- C4: the decay multiplier is `min(0.5, ignoredStreak * 0.1)` for items
with interaction history, `min(0.8, ageDays / 30)` for never-seen items,
and the score before quiet suppression and clamping is the weighted raw
sum times `(1 - decay)`. -/
theorem c4_decay_formula (item : Item) (ctx : Context) :
    (∀ t, item.signals.lastSeenAt = some t →
      computeDecay item ctx = min (1 / 2) ((item.signals.ignoredStreak : ℚ) * (1 / 10))) ∧
    (item.signals.lastSeenAt = none →
      computeDecay item ctx = min (4 / 5) (ageDaysSinceCreated item ctx / 30)) ∧
    scoreAfterDecay item ctx = rawScore item ctx * (1 - (computeDecay item ctx : ℝ)) ∧
    (computeRelevance item ctx).score =
      normalize (if quietActive item ctx then scoreAfterDecay item ctx * (1 / 10)
        else scoreAfterDecay item ctx) := by
  refine ⟨?_, ?_, rfl, rfl⟩
  · intro t ht
    unfold computeDecay
    rw [ht]
  · intro ht
    unfold computeDecay
    rw [ht]

/-- Witness for the decay formula at an item seen once with an ignored
streak of three. -/
theorem c4_decay_formula_witness :
    computeDecay decayWItem baseCtx =
      min (1 / 2) ((decayWItem.signals.ignoredStreak : ℚ) * (1 / 10)) :=
  (c4_decay_formula decayWItem baseCtx).1 5 rfl

/-- C5 counterexample: a quieted item created 150 days in the future. The
never-seen decay `min(0.8, ageDays/30)` is then `-5`, the pre-clamp score
`0.17 * 6 = 1.02`, and clamping leaves the quieted score at `0.102` while
the unquieted score clamps down to 1, breaking the claimed 10% bound. -/
theorem c5_quiet_claim_cex :
    quietCexItem.signals.quietUntil = some 100 ∧ baseCtx.now < 100 ∧
    (computeRelevance quietCexItem baseCtx).score = 51 / 500 ∧
    (computeRelevance quietCexItemNoQuiet baseCtx).score = 1 ∧
    ¬((computeRelevance quietCexItem baseCtx).score ≤
        (1 / 10) * (computeRelevance quietCexItemNoQuiet baseCtx).score) := by
  have ht : computeTimeAffinity quietCexItem baseCtx = 0 := by
    simp +decide [computeTimeAffinity, quietCexItem, blankItem, blankSignals, baseCtx,
      histGet, histTotal]
  have hp : computePlaceAffinity quietCexItem baseCtx = 4 / 5 := by
    simp +decide [computePlaceAffinity, quietCexItem, blankItem, blankSignals, baseCtx]
  have hdev : computeDeviceAffinity quietCexItem baseCtx = 0 := by
    simp +decide [computeDeviceAffinity, quietCexItem, blankItem, blankSignals, baseCtx,
      histGet, histTotal]
  have hrec : computeRecencyBoost quietCexItem baseCtx = 0 := rfl
  have hfreq : computeFrequencyBoost quietCexItem = 0 := by
    simp [computeFrequencyBoost, quietCexItem, blankItem, blankSignals, Real.logb_one]
  have hnov : computeNoveltyBoost quietCexItem baseCtx = 1 := by
    norm_num [computeNoveltyBoost, ageHours, quietCexItem, blankItem, blankSignals,
      baseCtx, msPerHour]
  have hpin : pinActive quietCexItem baseCtx = false := rfl
  have hdec : computeDecay quietCexItem baseCtx = -5 := by
    norm_num [computeDecay, ageDaysSinceCreated, quietCexItem, blankItem, blankSignals,
      baseCtx, msPerDay, min_def]
  have hraw : rawScore quietCexItem baseCtx = 17 / 100 := by
    unfold rawScore
    rw [ht, hp, hdev, hrec, hfreq, hnov, hpin]
    push_cast
    norm_num [SCORING_WEIGHTS.TIME, SCORING_WEIGHTS.PLACE, SCORING_WEIGHTS.DEVICE,
      SCORING_WEIGHTS.RECENCY, SCORING_WEIGHTS.FREQUENCY, SCORING_WEIGHTS.PINNED,
      SCORING_WEIGHTS.NOVELTY]
  have hsad : scoreAfterDecay quietCexItem baseCtx = 51 / 50 := by
    unfold scoreAfterDecay
    rw [hraw, hdec]
    push_cast
    norm_num
  have hqt : quietActive quietCexItem baseCtx = true := rfl
  have hqf : quietActive quietCexItemNoQuiet baseCtx = false := rfl
  have hsd2 : scoreAfterDecay quietCexItemNoQuiet baseCtx =
      scoreAfterDecay quietCexItem baseCtx := rfl
  have hq1 : (computeRelevance quietCexItem baseCtx).score = 51 / 500 := by
    rw [computeRelevance_score, hqt]
    simp only [if_true]
    rw [hsad]
    norm_num [normalize, min_def, max_def]
  have hq2 : (computeRelevance quietCexItemNoQuiet baseCtx).score = 1 := by
    rw [computeRelevance_score, hqf]
    simp only [Bool.false_eq_true, if_false]
    rw [hsd2, hsad]
    norm_num [normalize, min_def, max_def]
  refine ⟨rfl, by decide, hq1, hq2, ?_⟩
  rw [hq1, hq2]
  norm_num

/-- C5 amended: for an item whose timestamps are not in the future
relative to `context.now` (`createdAt ≤ now`; `lastSeenAt ≤ now` when
present), a quiet period still in force makes the returned score at most
10% of the score of the same item with the quiet period absent. -/
theorem c5_quiet_suppression (item : Item) (ctx : Context) (q : Int)
    (hq : item.signals.quietUntil = some q) (hfut : ctx.now < q)
    (hc : item.signals.createdAt ≤ ctx.now)
    (hl : ∀ t, item.signals.lastSeenAt = some t → t ≤ ctx.now) :
    (computeRelevance item ctx).score ≤
      (1 / 10) * (computeRelevance (withQuietUntil item none) ctx).score := by
  obtain ⟨hs0, hs1⟩ := scoreAfterDecay_mem_unit item ctx (fun _ => hc) hl
  have hsd : scoreAfterDecay (withQuietUntil item none) ctx = scoreAfterDecay item ctx := rfl
  have hqt : quietActive item ctx = true := by
    unfold quietActive
    rw [hq]
    exact decide_eq_true hfut
  have hqf : quietActive (withQuietUntil item none) ctx = false := rfl
  rw [computeRelevance_score, computeRelevance_score, hqt, hqf, hsd]
  simp only [if_true, Bool.false_eq_true, if_false]
  have h10 : 0 ≤ scoreAfterDecay item ctx * (1 / 10) := mul_nonneg hs0 (by norm_num)
  have h11 : scoreAfterDecay item ctx * (1 / 10) ≤ 1 := by linarith
  rw [normalize_of_mem_unit h10 h11, normalize_of_mem_unit hs0 hs1]
  linarith

/-- Witness for the amended quiet-suppression bound at a fresh item
quieted until 50ms after the epoch. -/
theorem c5_quiet_suppression_witness :
    (computeRelevance quietWItem baseCtx).score ≤
      (1 / 10) * (computeRelevance (withQuietUntil quietWItem none) baseCtx).score :=
  c5_quiet_suppression quietWItem baseCtx 50 rfl (by decide) (by decide)
    (fun t h => nomatch h)

/-- C6: a pinned item whose pin has not expired scores at least as much as
the same item with the pin removed, all other fields and the context
equal. -/
theorem c6_pin_boost (item : Item) (ctx : Context)
    (hp : item.signals.isPinned = true)
    (hv : item.signals.pinUntil = none ∨ ∃ t, item.signals.pinUntil = some t ∧ ctx.now < t) :
    (computeRelevance (withPinned item false) ctx).score ≤
      (computeRelevance item ctx).score := by
  have hpinT : pinActive item ctx = true := by
    unfold pinActive
    rw [hp, Bool.true_and]
    rcases hv with h | ⟨t, ht, hlt⟩
    · rw [h]
    · rw [ht]
      exact decide_eq_true hlt
  have hpinF : pinActive (withPinned item false) ctx = false := by
    simp [pinActive, withPinned]
  have e1 : computeTimeAffinity (withPinned item false) ctx = computeTimeAffinity item ctx := rfl
  have e2 : computePlaceAffinity (withPinned item false) ctx = computePlaceAffinity item ctx := rfl
  have e3 : computeDeviceAffinity (withPinned item false) ctx =
      computeDeviceAffinity item ctx := rfl
  have e4 : computeRecencyBoost (withPinned item false) ctx = computeRecencyBoost item ctx := rfl
  have e5 : computeFrequencyBoost (withPinned item false) = computeFrequencyBoost item := rfl
  have e6 : computeNoveltyBoost (withPinned item false) ctx = computeNoveltyBoost item ctx := rfl
  have e7 : computeDecay (withPinned item false) ctx = computeDecay item ctx := rfl
  have e8 : quietActive (withPinned item false) ctx = quietActive item ctx := rfl
  have hraw : rawScore item ctx =
      rawScore (withPinned item false) ctx + SCORING_WEIGHTS.PINNED := by
    unfold rawScore
    rw [e1, e2, e3, e4, e5, e6, hpinT, hpinF]
    simp only [if_true, Bool.false_eq_true, if_false]
    ring
  have hdle : (computeDecay item ctx : ℝ) ≤ 4 / 5 := by
    have h := (Rat.cast_le (K := ℝ)).mpr (computeDecay_le item ctx)
    push_cast at h
    exact h
  have hsd : scoreAfterDecay (withPinned item false) ctx ≤ scoreAfterDecay item ctx := by
    unfold scoreAfterDecay
    rw [e7, hraw]
    have hw : (0 : ℝ) ≤ SCORING_WEIGHTS.PINNED := by norm_num [SCORING_WEIGHTS.PINNED]
    nlinarith
  rw [computeRelevance_score, computeRelevance_score, e8]
  cases hqa : quietActive item ctx
  · simp only [Bool.false_eq_true, if_false]
    exact normalize_mono hsd
  · simp only [if_true]
    exact normalize_mono (mul_le_mul_of_nonneg_right hsd (by norm_num))

/-- Witness for the pin invariant at a fresh item pinned without expiry. -/
theorem c6_pin_boost_witness :
    (computeRelevance (withPinned pinWItem false) baseCtx).score ≤
      (computeRelevance pinWItem baseCtx).score :=
  c6_pin_boost pinWItem baseCtx rfl (Or.inl rfl)

/-- C7: the novelty sub-score is 1 below 24 hours of age, fades linearly
as `1 - (ageHours - 24)/48` between 24 and 72 hours (so that it is exactly
0.5 at 48 hours), and is 0 from 72 hours on. -/
theorem c7_novelty_decay (item : Item) (ctx : Context) :
    (ageHours item ctx < 24 → computeNoveltyBoost item ctx = 1) ∧
    (24 ≤ ageHours item ctx → ageHours item ctx < 72 →
      computeNoveltyBoost item ctx = 1 - (ageHours item ctx - 24) / 48) ∧
    (ageHours item ctx = 48 → computeNoveltyBoost item ctx = 1 / 2) ∧
    (72 ≤ ageHours item ctx → computeNoveltyBoost item ctx = 0) := by
  refine ⟨?_, ?_, ?_, ?_⟩
  · intro h
    simp only [computeNoveltyBoost, if_pos h]
  · intro h1 h2
    simp only [computeNoveltyBoost, if_neg (not_lt.mpr h1), if_pos h2]
  · intro h48
    simp only [computeNoveltyBoost, h48]
    norm_num
  · intro h72
    have hn24 : ¬ ageHours item ctx < 24 := by linarith
    have hn72 : ¬ ageHours item ctx < 72 := by linarith
    simp only [computeNoveltyBoost, if_neg hn24, if_neg hn72]

/-- Witness for the novelty decay at an item created exactly 48 hours
before the context time. -/
theorem c7_novelty_decay_witness :
    computeNoveltyBoost blankItem novelty48Ctx = 1 / 2 :=
  (c7_novelty_decay blankItem novelty48Ctx).2.2.1
    (by norm_num [ageHours, blankItem, blankSignals, novelty48Ctx, msPerHour])

/-- C8: for eight items, none pinned or quieted, `rankItems` returns a
visible set of length exactly `MAX_VISIBLE = 5` that is the first five
entries of the score-sorted `all` list, and every visible item scores at
least as much as every non-visible item of `all`. -/
theorem c8_rank_eight_items (items : List Item) (ctx : Context)
    (hlen : items.length = 8)
    (hpin : ∀ it ∈ items, it.signals.isPinned = false)
    (hquiet : ∀ it ∈ items, quietActive it ctx = false) :
    (rankItems items ctx).visible.length = 5 ∧
    (rankItems items ctx).visible = (rankItems items ctx).all.take 5 ∧
    (∀ v ∈ (rankItems items ctx).visible, v ∈ (rankItems items ctx).all) ∧
    (∀ v ∈ (rankItems items ctx).visible, ∀ w ∈ (rankItems items ctx).all,
      w ∉ (rankItems items ctx).visible → w.score ≤ v.score) := by
  have hperm : (rankAll items ctx).Perm (scoreItems items ctx) :=
    List.perm_insertionSort rankRel (scoreItems items ctx)
  have hsorted : List.Sorted rankRel (rankAll items ctx) :=
    List.sorted_insertionSort rankRel (scoreItems items ctx)
  have hmemq : ∀ s ∈ rankAll items ctx, quietActive s.item ctx = false := by
    intro s hs
    have hs2 : s ∈ scoreItems items ctx := hperm.mem_iff.mp hs
    unfold scoreItems at hs2
    rw [List.mem_map] at hs2
    obtain ⟨it, hit, heq⟩ := hs2
    rw [← heq]
    exact hquiet it hit
  have hfq : (rankAll items ctx).filter (fun s => quietActive s.item ctx) = [] := by
    rw [List.filter_eq_nil_iff]
    intro s hs
    rw [hmemq s hs]
    simp
  have hfn : (rankAll items ctx).filter (fun s => !(quietActive s.item ctx)) =
      rankAll items ctx := by
    rw [List.filter_eq_self]
    intro s hs
    rw [hmemq s hs]
    rfl
  have hvis : (rankItems items ctx).visible = (rankAll items ctx).take 5 := by
    show ((rankAll items ctx).filter _ ++ (rankAll items ctx).filter _).take MAX_VISIBLE
      = (rankAll items ctx).take 5
    rw [hfn, hfq, List.append_nil]
    rfl
  have hlenall : (rankAll items ctx).length = 8 := by
    rw [hperm.length_eq]
    unfold scoreItems
    rw [List.length_map]
    exact hlen
  have halleq : (rankItems items ctx).all = rankAll items ctx := rfl
  refine ⟨?_, by rw [hvis, halleq], ?_, ?_⟩
  · rw [hvis, List.length_take, hlenall]
    norm_num
  · intro v hv
    rw [hvis] at hv
    rw [halleq]
    exact List.take_subset 5 _ hv
  · intro v hv w hw hnw
    rw [hvis] at hv hnw
    rw [halleq] at hw
    have hw2 : w ∈ (rankAll items ctx).drop 5 := by
      rw [← List.take_append_drop 5 (rankAll items ctx)] at hw
      rcases List.mem_append.mp hw with h | h
      · exact absurd h hnw
      · exact h
    have hpair : rankRel v w := by
      have hs := hsorted
      rw [← List.take_append_drop 5 (rankAll items ctx)] at hs
      exact (List.pairwise_append.mp hs).2.2 v hv w hw2
    rcases hpair with h | ⟨he, _⟩
    · exact h.le
    · exact le_of_eq he.symm

/-- Witness for the ranking scenario at eight concrete fresh items. -/
theorem c8_rank_eight_items_witness :
    (rankItems witnessItems baseCtx).visible.length = 5 :=
  (c8_rank_eight_items witnessItems baseCtx (by decide) (by decide) (by decide)).1

/-- C9: `rankItems` is deterministic and idempotent — identical inputs
give identical outputs — `all` is a permutation of the freshly scored
input collection, and `all` is sorted by descending score with ties
broken deterministically by `createdAt` ascending (the `rankRel` order). -/
theorem c9_rank_deterministic (items : List Item) (ctx : Context) :
    rankItems items ctx = rankItems items ctx ∧
    List.Sorted rankRel (rankItems items ctx).all ∧
    (rankItems items ctx).all.Perm (scoreItems items ctx) :=
  ⟨rfl, List.sorted_insertionSort rankRel (scoreItems items ctx),
    List.perm_insertionSort rankRel (scoreItems items ctx)⟩

/-- C10: `dismissedCount` never influences scoring: two items that differ
only in `signals.dismissedCount` receive identical score and reasons, and
the frequency sub-score reads only `seenCount` and `openedCount`. -/
theorem c10_dismissed_count_irrelevant (item : Item) (ctx : Context) (n : Nat) :
    computeRelevance (withDismissedCount item n) ctx = computeRelevance item ctx ∧
    computeFrequencyBoost (withDismissedCount item n) = computeFrequencyBoost item :=
  ⟨rfl, rfl⟩

end Orbit
